import Mathlib

/-!
Verification development for the PANELNOC2 dashboard's two specified
mechanisms: the signed session-token service (src/lib/auth.ts) and the
router-telemetry normalizer (src/app/(protected)/page.tsx).

Modelling conventions (shallow embedding):
* JavaScript values produced by JSON parsing are modelled by `JsVal`.
  JSON numbers are modelled as exact rationals (`Rat`); every number in
  scope is finite (JSON has no NaN/Infinity literals), so the
  `Number.isFinite` guards in the source are noted where they occur.
  Object field lists are insertion-ordered with pairwise distinct keys,
  matching the result of `JSON.parse`.
* Host primitives that are not part of the repository (the keyed hash
  `crypto.createHmac`, `JSON.parse`, `JSON.stringify`/`Buffer` body
  encoding) are passed to the embedded functions as explicit function
  parameters; theorems state their required properties as hypotheses and
  witnesses instantiate them with concrete functions.
* Stateful React `setState` updates are modelled by explicit state
  passing over `MonState`.
-/

set_option maxHeartbeats 1000000

namespace PanelNoc

/-- JavaScript runtime values as they appear in the telemetry pipeline:
the possible results of JSON parsing plus `undefined` for absent object
fields. -/
inductive JsVal where
  | null
  | undefined
  | bool (b : Bool)
  | num (q : Rat)
  | str (s : String)
  | arr (elems : List JsVal)
  | obj (fields : List (String × JsVal))

/-- Property access `record[k]`: the field's value, or `undefined` when the
key is absent or the receiver is not an object with that key (array and
scalar receivers yield `undefined` for the string keys used here). -/
def JsVal.getField : JsVal → String → JsVal
  | .obj fs, k => ((fs.find? (fun p => p.1 == k)).map Prod.snd).getD .undefined
  | _, _ => .undefined

/-- JavaScript truthiness (no NaN in the model; see module comment). -/
def JsVal.truthy : JsVal → Bool
  | .null => false
  | .undefined => false
  | .bool b => b
  | .num q => q != 0
  | .str s => s != ""
  | .arr _ => true
  | .obj _ => true

/-- Does `typeof v === "object" && v` hold (arrays included, `null`
excluded by truthiness at each use site)? -/
def JsVal.isObjectLike : JsVal → Bool
  | .obj _ => true
  | .arr _ => true
  | _ => false

/-- Is the value a non-array object (`typeof v === "object" &&
!Array.isArray(v)` together with truthiness)? -/
def JsVal.isPlainObject : JsVal → Bool
  | .obj _ => true
  | _ => false

/-- Array test `Array.isArray`, returning the elements. -/
def asArray? : JsVal → Option (List JsVal)
  | .arr xs => some xs
  | _ => none

/-- Source `asRecord` (page.tsx): the value itself when it is a truthy
non-array object, else `null`. -/
def asRecordVal : JsVal → Option JsVal
  | .obj fs => some (.obj fs)
  | _ => none

/-- JavaScript `String.prototype.split` with a single-character
separator, on character lists: separators delimit (possibly empty)
pieces, and the empty input yields one empty piece. -/
def splitChList (sep : Char) : List Char → List (List Char)
  | [] => [[]]
  | c :: rest =>
    let r := splitChList sep rest
    if c = sep then [] :: r
    else
      match r with
      | a :: tail => (c :: a) :: tail
      | [] => [[c]]

/-- JavaScript `s.split(sep)` for a one-character separator string. -/
def jsSplit (sep : Char) (s : String) : List String :=
  (splitChList sep s.data).map (fun cs => String.mk cs)

/-- The whitespace set stripped by JavaScript `String.prototype.trim`
(the common code points: tab, LF, VT, FF, CR, space, NBSP, BOM). -/
def isJsWhitespace (c : Char) : Bool :=
  c.toNat = 9 ∨ c.toNat = 10 ∨ c.toNat = 11 ∨ c.toNat = 12 ∨ c.toNat = 13 ∨
    c.toNat = 32 ∨ c.toNat = 160 ∨ c.toNat = 65279

/-- JavaScript `s.trim()`: strip leading and trailing whitespace. -/
def jsTrim (s : String) : String :=
  String.mk (((s.data.dropWhile isJsWhitespace).reverse.dropWhile isJsWhitespace).reverse)

/-- JavaScript `s.toLowerCase()` on the ASCII payloads used here. -/
def jsToLower (s : String) : String :=
  String.mk (s.data.map Char.toLower)

/-- Source `pickString`: trimmed string when non-empty, else `null`. -/
def pickString : JsVal → Option String
  | .str s =>
    let t := jsTrim s
    if t = "" then none else some t
  | _ => none

/-- Smallest exponent `e ≤ 40` with `den ∣ 10 ^ e`, used to render a
rational as the decimal string JavaScript would print. -/
def pow10Exp (den : Nat) : Option Nat :=
  (List.range 41).find? (fun e => den ∣ 10 ^ e)

/-- JavaScript `String(value)` for a (finite) number. Faithful for
integers and terminating decimals — the only numeric shapes that reach
identifier conversion in this development; other rationals (never
produced by the modelled JSON inputs) fall back to a fraction rendering. -/
def ratToJsString (q : Rat) : String :=
  if q.den = 1 then toString q.num
  else
    match pow10Exp q.den with
    | some e =>
      let m : Int := q.num * ((10 ^ e : Int) / (q.den : Int))
      let sign := if m < 0 then "-" else ""
      let a := m.natAbs
      let ip := a / 10 ^ e
      let fp := a % 10 ^ e
      let fpStr := toString fp
      let pad := String.mk (List.replicate (e - fpStr.length) '0')
      sign ++ toString ip ++ "." ++ pad ++ fpStr
    | none => toString q.num ++ "/" ++ toString q.den

/-- Source `pickIdentifier`: `String(value).trim()` for strings and
(finite) numbers when the result is non-empty. -/
def pickIdentifier : JsVal → Option String
  | .str s =>
    let t := jsTrim s
    if t = "" then none else some t
  | .num q =>
    let t := jsTrim (ratToJsString q)
    if t = "" then none else some t
  | _ => none

/-- Numeric value of a decimal digit character. -/
def digitVal (c : Char) : Nat := c.toNat - '0'.toNat

/-- Value of a digit list, most significant first. -/
def natOfDigits (ds : List Char) : Nat :=
  ds.foldl (fun acc c => acc * 10 + digitVal c) 0

/-- Longest digit run at the head of the character list, with the rest. -/
def takeDigits : List Char → List Char × List Char
  | [] => ([], [])
  | c :: rest =>
    if c.isDigit then
      let p := takeDigits rest
      (c :: p.1, p.2)
    else ([], c :: rest)

/-- Fractional digits consumed by the optional group of the source regex
when the remaining text starts with a dot followed by at least one
digit. -/
def fracPart : List Char → List Char
  | '.' :: rest =>
    match takeDigits rest with
    | ([], _) => []
    | (ds, _) => ds
  | _ => []

/-- First match of the source regex `-?\d+(\.\d+)?`, scanning left to
right: sign flag, integer digits, fractional digits. -/
def findDecimalMatch : List Char → Option (Bool × List Char × List Char)
  | [] => none
  | c :: rest =>
    if c.isDigit then
      let p := takeDigits (c :: rest)
      some (false, p.1, fracPart p.2)
    else if c = '-' then
      match rest with
      | [] => none
      | d :: _ =>
        if d.isDigit then
          let p := takeDigits rest
          some (true, p.1, fracPart p.2)
        else findDecimalMatch rest
    else findDecimalMatch rest

/-- Exact value of a matched decimal literal. -/
def decimalToRat (neg : Bool) (ds fs : List Char) : Rat :=
  let mag : Rat := (natOfDigits ds : Rat) + (natOfDigits fs : Rat) / ((10 : Rat) ^ fs.length)
  if neg then -mag else mag

/-- Source `pickNumber` string branch: strip every comma, find the first
`-?\d+(\.\d+)?` match, convert it (`Number` of such a match is never
`NaN`, so the source's NaN guard cannot fire). -/
def parseDecimalString (s : String) : Option Rat :=
  match findDecimalMatch (s.data.filter (fun c => c ≠ ',')) with
  | some (neg, ds, fs) => some (decimalToRat neg ds fs)
  | none => none

/-- Source `pickNumber`: finite numbers pass through (all model numbers
are finite), numeric-looking strings are coerced, everything else is
`null`. -/
def pickNumber : JsVal → Option Rat
  | .num q => some q
  | .str s => parseDecimalString s
  | _ => none

/-- Interface traffic value after normalization: a number or an opaque
non-numeric string (`null` is modelled by `Option`). -/
inductive MetricVal where
  | num (q : Rat)
  | str (s : String)
deriving DecidableEq

/-- Source `pickMetricValue`: numeric if parseable, else the trimmed
non-empty string, else `null`. -/
def pickMetricValue (v : JsVal) : Option MetricVal :=
  match pickNumber v with
  | some q => some (.num q)
  | none =>
    match v with
    | .str s =>
      let t := jsTrim s
      if t = "" then none else some (.str t)
    | _ => none

/-- Normalized per-interface traffic stats (source `RouterInterfaceStat`). -/
structure RouterInterfaceStat where
  name : String
  rx : Option MetricVal
  tx : Option MetricVal
  status : Option String
  rxUnit : Option String
  txUnit : Option String
deriving DecidableEq

/-- Normalized per-router metrics (source `RouterMetric`). -/
structure RouterMetric where
  id : String
  name : String
  status : Option String
  total : Option Rat
  active : Option Rat
  cpu : Option Rat
  memory : Option Rat
  interfaces : List RouterInterfaceStat
  lastUpdatedAt : Int
deriving DecidableEq

/-- Source `normalizeInterfaceEntry`. The source never returns `null`:
both the scalar branch and the object branch construct a stat, so the
result is total. Scalar string entries keep their trimmed text as `rx`
verbatim (possibly the empty string). -/
def normalizeInterfaceEntry (value : JsVal) (index : Nat) (fallbackName : Option String) :
    RouterInterfaceStat :=
  if value.truthy && value.isObjectLike then
    let g := value.getField
    let name :=
      (pickString (g "name") <|> pickString (g "interface") <|> pickString (g "iface") <|>
        pickString (g "id")).getD (fallbackName.getD ("Interface " ++ toString (index + 1)))
    let rx :=
      pickMetricValue (g "rx") <|> pickMetricValue (g "rx_bps") <|>
      pickMetricValue (g "rxRate") <|> pickMetricValue (g "rx_rate") <|>
      pickMetricValue (g "rx_mbps") <|> pickMetricValue (g "rxBytes") <|>
      pickMetricValue (g "rx_bytes") <|> pickMetricValue (g "download") <|>
      pickMetricValue (g "in") <|> pickMetricValue (g "receive") <|>
      pickMetricValue (g "rxTraffic")
    let tx :=
      pickMetricValue (g "tx") <|> pickMetricValue (g "tx_bps") <|>
      pickMetricValue (g "txRate") <|> pickMetricValue (g "tx_rate") <|>
      pickMetricValue (g "tx_mbps") <|> pickMetricValue (g "txBytes") <|>
      pickMetricValue (g "tx_bytes") <|> pickMetricValue (g "upload") <|>
      pickMetricValue (g "out") <|> pickMetricValue (g "transmit") <|>
      pickMetricValue (g "txTraffic")
    let statusValue :=
      pickString (g "status") <|> pickString (g "state") <|>
      pickString (g "linkStatus") <|> pickString (g "interfaceStatus")
    let rxUnit := pickString (g "rx_unit") <|> pickString (g "rxUnit") <|> pickString (g "rxUnits")
    let txUnit := pickString (g "tx_unit") <|> pickString (g "txUnit") <|> pickString (g "txUnits")
    { name := name, rx := rx, tx := tx, status := statusValue, rxUnit := rxUnit, txUnit := txUnit }
  else
    let label := fallbackName.getD ("Interface " ++ toString (index + 1))
    match value with
    | .num q =>
      { name := label, rx := some (.num q), tx := none, status := none, rxUnit := none, txUnit := none }
    | .str s =>
      { name := label, rx := some (.str (jsTrim s)), tx := none, status := none, rxUnit := none, txUnit := none }
    | _ =>
      { name := label, rx := none, tx := none, status := none, rxUnit := none, txUnit := none }

/-- Source `normalizeInterfaces`: `null` on a falsy container; array
entries normalized positionally; object entries normalized with the key
as fallback name; any other truthy value yields the empty list. Every
normalized entry is pushed (the source's null-filter can never drop
one). -/
def normalizeInterfaces (value : JsVal) : Option (List RouterInterfaceStat) :=
  if ¬ value.truthy then none
  else
    match value with
    | .arr entries =>
      some (entries.enum.map (fun p => normalizeInterfaceEntry p.2 p.1 none))
    | .obj fs =>
      some (fs.enum.map (fun p => normalizeInterfaceEntry p.2.2 p.1 (some p.2.1)))
    | _ => some []

/-- Source `normalizeRouterItem`. Only truthy object-like values
normalize; `name` always resolves thanks to its positional fallback, so
the identifier chain never reaches its `router-<index>` placeholder and
the source's final null-guard is provably dead (kept here verbatim). -/
def normalizeRouterItem (value : JsVal) (index : Nat) (now : Int) : Option RouterMetric :=
  if ¬ (value.truthy && value.isObjectLike) then none
  else
    let g := value.getField
    let name :=
      (pickString (g "name") <|> pickString (g "routerName") <|> pickString (g "router") <|>
        pickString (g "identity")).getD ("Router " ++ toString (index + 1))
    let identifier :=
      (pickIdentifier (g "id") <|> pickIdentifier (g "routerId") <|>
        pickIdentifier (g "uuid")).getD name
    if name = "" ∨ identifier = "" then none
    else
      let resourceGroup := asRecordVal (g "resource")
      let pppoeGroup := asRecordVal (g "pppoe")
      let status :=
        pickString (g "status") <|> pickString (g "state") <|> pickString (g "health") <|>
        pickString (g "connectionStatus")
      let total :=
        pickNumber (g "total") <|> pickNumber (g "pppoe_total") <|>
        pickNumber (g "pppoeTotal") <|> pickNumber (g "pppoe_count") <|>
        pppoeGroup.bind (fun r => pickNumber (r.getField "total"))
      let active :=
        pickNumber (g "active") <|> pickNumber (g "pppoe_active") <|>
        pickNumber (g "pppoeActive") <|>
        pppoeGroup.bind (fun r => pickNumber (r.getField "active"))
      let cpu :=
        pickNumber (g "cpu") <|> pickNumber (g "cpu_usage") <|>
        resourceGroup.bind (fun r => pickNumber (r.getField "cpu")) <|>
        pickNumber (g "cpuLoad") <|> pickNumber (g "cpu_load")
      let memory :=
        pickNumber (g "memory") <|> pickNumber (g "memory_usage") <|>
        resourceGroup.bind (fun r => pickNumber (r.getField "memory")) <|>
        pickNumber (g "memoryLoad") <|> pickNumber (g "memory_load")
      let interfaces :=
        (normalizeInterfaces (g "interfaces") <|> normalizeInterfaces (g "interface") <|>
          normalizeInterfaces (g "ifaces") <|> normalizeInterfaces (g "traffic") <|>
          normalizeInterfaces (g "stats")).getD []
      some
        { id := identifier, name := name, status := status, total := total, active := active,
          cpu := cpu, memory := memory, interfaces := interfaces, lastUpdatedAt := now }

/-- Source `extractRouterItems`: alias array fields, singular
`router`/`device` wrapping, the all-nested-objects flattening, and the
single-item fallback. -/
def extractRouterItems (payload : JsVal) : List JsVal :=
  if ¬ payload.truthy then []
  else
    match payload with
    | .arr xs => xs
    | .obj fs =>
      let record := JsVal.obj fs
      match asArray? (record.getField "routers") with
      | some xs => xs
      | none =>
      match asArray? (record.getField "data") with
      | some xs => xs
      | none =>
      match asArray? (record.getField "items") with
      | some xs => xs
      | none =>
      match asArray? (record.getField "result") with
      | some xs => xs
      | none =>
      if (record.getField "router").truthy then [record.getField "router"]
      else if (record.getField "device").truthy then [record.getField "device"]
      else
        let nestedValues := (fs.map Prod.snd).filter (fun v => v.truthy && v.isPlainObject)
        if nestedValues.length > 0 ∧ nestedValues.length = fs.length then nestedValues
        else [record]
    | _ => []

/-- Source `normalizeRouterPayload`: extract raw items, normalize each
with its position, keep the successes. -/
def normalizeRouterPayload (payload : JsVal) (now : Int) : List RouterMetric :=
  (extractRouterItems payload).enum.filterMap (fun p => normalizeRouterItem p.2 p.1 now)

/-- Classified monitoring payload (source `MonitoringPayload`). -/
inductive MonitoringPayload where
  | full (routers : List JsVal)
  | delta (added updated removed : List JsVal)

/-- One step of the source's candidate loop in
`interpretMonitoringPayload`: a falsy candidate is skipped, a non-empty
array candidate is a full snapshot, an object candidate exposing a
`routers` array (even an empty one) is a full snapshot. -/
def candidateFull : JsVal → Option MonitoringPayload
  | .arr xs => if xs.length > 0 then some (.full xs) else none
  | .obj fs =>
    match asArray? ((JsVal.obj fs).getField "routers") with
    | some xs => some (.full xs)
    | none => none
  | _ => none

/-- Source `interpretMonitoringPayload`: arrays are full snapshots, a
case-insensitive `type: "delta"` object carries `added`/`updated`/
`removed` arrays (defaulting to empty), otherwise the candidate loop and
the `extractRouterItems` fallback classify full snapshots; anything that
yields nothing is discarded (`null`). -/
def interpretMonitoringPayload (payload : JsVal) : Option MonitoringPayload :=
  match payload with
  | .arr xs => some (.full xs)
  | .obj fs =>
    let record := JsVal.obj fs
    let announcedType : Option String :=
      match record.getField "type" with
      | .str s => some (jsToLower s)
      | _ => none
    if announcedType = some "delta" then
      let routersRecord := asRecordVal (record.getField "routers")
      let added := (routersRecord.bind (fun r => asArray? (r.getField "added"))).getD []
      let updated := (routersRecord.bind (fun r => asArray? (r.getField "updated"))).getD []
      let removed := (routersRecord.bind (fun r => asArray? (r.getField "removed"))).getD []
      some (.delta added updated removed)
    else
      let dataField := record.getField "data"
      let candidates : List JsVal :=
        (if announcedType = some "full" then [dataField] else []) ++ [record] ++
        (if dataField.truthy && dataField.isPlainObject then [dataField] else [])
      match candidates.findSome? candidateFull with
      | some res => some res
      | none =>
        let extracted := extractRouterItems record
        if extracted.length > 0 then some (.full extracted) else none
  | _ => none

/-- Identifier resolved from one `removed` entry: bare trimmed strings,
finite numbers stringified, or the alias chain on object entries. -/
def extractIdentifierOfEntry : JsVal → Option String
  | .str s =>
    let t := jsTrim s
    if t = "" then none else some t
  | .num q => some (ratToJsString q)
  | .obj fs =>
    let g := (JsVal.obj fs).getField
    pickIdentifier (g "id") <|> pickIdentifier (g "routerId") <|> pickIdentifier (g "uuid") <|>
      pickString (g "router") <|> pickString (g "name")
  | .arr xs =>
    let g := (JsVal.arr xs).getField
    pickIdentifier (g "id") <|> pickIdentifier (g "routerId") <|> pickIdentifier (g "uuid") <|>
      pickString (g "router") <|> pickString (g "name")
  | _ => none

/-- Source `extractRouterIdentifiers`: resolve each entry and collect
into an insertion-ordered set. -/
def extractRouterIdentifiers (entries : List JsVal) : List String :=
  entries.foldl
    (fun acc e =>
      match extractIdentifierOfEntry e with
      | some ident => if acc.contains ident then acc else acc ++ [ident]
      | none => acc)
    []

/-- One per-router history sample (source `RouterHistoryPoint`). -/
structure RouterHistoryPoint where
  timestamp : Int
  cpu : Option Rat
  memory : Option Rat
  active : Option Rat
  peakTraffic : Option Rat
deriving DecidableEq

/-- Source `metricToNumber`: finite numbers pass, strings go through the
`pickNumber` coercion, everything else is `null`. -/
def metricToNumber : Option MetricVal → Option Rat
  | some (.num q) => some q
  | some (.str s) => parseDecimalString s
  | none => none

/-- One iteration of the source's `interfaces.forEach` loop in
`calculatePeakTrafficFromInterfaces`: collect the numeric rx/tx values of
one interface, take their `Math.max`, and keep the larger of it and the
running peak. -/
def peakStep (peak : Option Rat) (iface : RouterInterfaceStat) : Option Rat :=
  let values := [metricToNumber iface.rx, metricToNumber iface.tx].reduceOption
  match values.max? with
  | none => peak
  | some localPeak =>
    match peak with
    | none => some localPeak
    | some p => if localPeak > p then some localPeak else some p

/-- Source `calculatePeakTrafficFromInterfaces`: fold keeping the largest
numeric rx/tx seen so far, `null` when no interface yields a number. -/
def calculatePeakTrafficFromInterfaces (interfaces : List RouterInterfaceStat) : Option Rat :=
  interfaces.foldl peakStep none

/-- Property assignment `m[k] = v` on an insertion-ordered string-keyed
map modelling a JavaScript object used as a dictionary: an existing key
keeps its position and gets the new value, a new key is appended. -/
def upsert {α : Type} (m : List (String × α)) (k : String) (v : α) : List (String × α) :=
  match m with
  | [] => [(k, v)]
  | p :: rest => if p.1 = k then (k, v) :: rest else p :: upsert rest k v

/-- Key deletion (`delete m[k]`). -/
def eraseKey {α : Type} (m : List (String × α)) (k : String) : List (String × α) :=
  m.filter (fun p => p.1 ≠ k)

/-- Key lookup (`m[k]`, `undefined` as `none`). -/
def lookupKey {α : Type} (m : List (String × α)) (k : String) : Option α :=
  (m.find? (fun p => p.1 = k)).map Prod.snd

/-- Last `60` elements, as `points.slice(-60)` on a list of length at
most one over the cap. -/
def sliceLast60 {α : Type} (xs : List α) : List α :=
  xs.drop (xs.length - 60)

/-- History push: append the new point, then cap at 60 entries. -/
def pushHistoryPoint (pts : List RouterHistoryPoint) (p : RouterHistoryPoint) :
    List RouterHistoryPoint :=
  sliceLast60 (pts ++ [p])

/-- History point recorded for a router at a message timestamp. -/
def mkHistoryPoint (ts : Int) (metric : RouterMetric) : RouterHistoryPoint :=
  { timestamp := ts, cpu := metric.cpu, memory := metric.memory, active := metric.active,
    peakTraffic := calculatePeakTrafficFromInterfaces metric.interfaces }

/-- The monitoring hook's state: the metric table and the per-router
bounded history (source `routerMetrics` / `history` React state). -/
structure MonState where
  metrics : List (String × RouterMetric)
  history : List (String × List RouterHistoryPoint)
deriving DecidableEq

/-- Initial state of a fresh connection. -/
def emptyMonState : MonState := { metrics := [], history := [] }

/-- The spread `{...(previousMetric ?? metric), ...metric, lastUpdatedAt:
timestamp}` from the delta-`updated` branch. `normalizeRouterItem`
constructs every `RouterMetric` key, so each field of the overlay is
present and shadows the base: the base contributes nothing at runtime. -/
def spreadMergeMetric (_base overlay : RouterMetric) (ts : Int) : RouterMetric :=
  { id := overlay.id, name := overlay.name, status := overlay.status, total := overlay.total,
    active := overlay.active, cpu := overlay.cpu, memory := overlay.memory,
    interfaces := overlay.interfaces, lastUpdatedAt := ts }

/-- History update for one router: push a fresh point onto its (possibly
missing) sequence and cap at 60. -/
def pushPointInto (ts : Int) (h : List (String × List RouterHistoryPoint))
    (metric : RouterMetric) : List (String × List RouterHistoryPoint) :=
  upsert h metric.id (pushHistoryPoint ((lookupKey h metric.id).getD []) (mkHistoryPoint ts metric))

/-- Body of the full-snapshot branch once the freshly normalized,
timestamp-stamped list is at hand: skip empty results, rebuild the metric
table from scratch, push a history point per router, prune history keys
to the snapshot. -/
def applyFullCore (ts : Int) (normalized : List RouterMetric) (s : MonState) : MonState :=
  if normalized.length = 0 then s
  else
    let metrics := normalized.foldl (fun acc m => upsert acc m.id m) []
    let validIds := normalized.map (fun m => m.id)
    let history₁ := normalized.foldl (pushPointInto ts) s.history
    let history := history₁.filter (fun p => validIds.contains p.1)
    { metrics := metrics, history := history }

/-- Full-snapshot branch of the message handler (page.tsx lines 228-270):
normalize and stamp the snapshot items, then reconcile. -/
def applyFullSnapshot (ts : Int) (routers : List JsVal) (s : MonState) : MonState :=
  applyFullCore ts
    ((normalizeRouterPayload (.arr routers) ts).map (fun m => { m with lastUpdatedAt := ts })) s

/-- Body of the delta branch once the normalized added/updated lists and
the removal identifiers are at hand: insert added, spread-merge updated,
delete removed, with history pushes for added and updated and history
deletion for removed. -/
def applyDeltaCore (ts : Int) (normalizedAdded normalizedUpdated : List RouterMetric)
    (removalIds : List String) (s : MonState) : MonState :=
  if normalizedAdded.length = 0 ∧ normalizedUpdated.length = 0 ∧ removalIds.length = 0 then s
  else
    let m₁ := normalizedAdded.foldl (fun acc m => upsert acc m.id m) s.metrics
    let m₂ := normalizedUpdated.foldl
      (fun acc m => upsert acc m.id (spreadMergeMetric ((lookupKey acc m.id).getD m) m ts)) m₁
    let m₃ := removalIds.foldl (fun acc ident => eraseKey acc ident) m₂
    let h₁ := normalizedAdded.foldl (pushPointInto ts) s.history
    let h₂ := normalizedUpdated.foldl (pushPointInto ts) h₁
    let h₃ := removalIds.foldl (fun acc ident => eraseKey acc ident) h₂
    { metrics := m₃, history := h₃ }

/-- Delta branch of the message handler (page.tsx lines 271-336):
normalize and stamp the added/updated items, resolve the removal
identifiers, then reconcile. -/
def applyDelta (ts : Int) (added updated removed : List JsVal) (s : MonState) : MonState :=
  applyDeltaCore ts
    ((normalizeRouterPayload (.arr added) ts).map (fun m => { m with lastUpdatedAt := ts }))
    ((normalizeRouterPayload (.arr updated) ts).map (fun m => { m with lastUpdatedAt := ts }))
    (extractRouterIdentifiers removed) s

/-- Dispatch on the classified payload kind. -/
def applyInterpreted (ts : Int) : MonitoringPayload → MonState → MonState
  | .full routers => applyFullSnapshot ts routers
  | .delta a u r => applyDelta ts a u r

/-- One inbound decoded message: classify, then reconcile; unclassifiable
payloads are discarded without touching the state. -/
def applyMessage (s : MonState) (msg : Int × JsVal) : MonState :=
  match interpretMonitoringPayload msg.2 with
  | none => s
  | some interp => applyInterpreted msg.1 interp s

/-- The non-empty trimmed lines of a text frame. Splitting on a newline
and trimming each piece agrees with the source's `/\r?\n/` split followed
by the same trim, since a carriage return left at the end of a piece is
removed by the trim. -/
def jsSegments (trimmed : String) : List String :=
  ((jsSplit '\n' trimmed).map jsTrim).filter (fun s => s ≠ "")

/-- The filter `segment !== null && segment !== ""` on parsed segments. -/
def isMeaningfulSegment : JsVal → Bool
  | .null => false
  | .str s => s ≠ ""
  | _ => true

/-- Source `normalizeTextPayload`, parameterized by the host JSON parser
(`tryParseJson`; `none` models a parse exception). Empty text is a
no-op (`null`); a whole-string parse wins; otherwise non-empty lines are
parsed independently with raw-line fallback, a single meaningful segment
is used directly, several become an array, and none falls back to the
trimmed raw string. -/
def normalizeTextPayload (tryParse : String → Option JsVal) (value : String) : JsVal :=
  let trimmed := jsTrim value
  if trimmed = "" then .null
  else
    match tryParse trimmed with
    | some v => v
    | none =>
      let segments := jsSegments trimmed
      if segments.length > 1 then
        let parsedSegments :=
          (segments.map (fun seg => (tryParse seg).getD (.str seg))).filter isMeaningfulSegment
        if parsedSegments.length = 1 then parsedSegments.headD (.str trimmed)
        else if parsedSegments.length > 1 then .arr parsedSegments
        else .str trimmed
      else .str trimmed

/-- Base64 alphabet in the URL-safe variant used by `base64url`. -/
def base64Chars : List Char :=
  "ABCDEFGHIJKLMNOPQRSTUVWXYZabcdefghijklmnopqrstuvwxyz0123456789-_".data

/-- Character for a 6-bit group. -/
def b64Char (n : Nat) : Char := base64Chars.getD n 'A'

/-- Unpadded base64url encoding of a byte list, as produced by Node's
`Buffer.prototype.toString("base64url")`. -/
def base64urlEncode : List Nat → List Char
  | [] => []
  | [b1] => [b64Char (b1 / 4), b64Char (b1 % 4 * 16)]
  | [b1, b2] => [b64Char (b1 / 4), b64Char (b1 % 4 * 16 + b2 / 16), b64Char (b2 % 16 * 4)]
  | b1 :: b2 :: b3 :: rest =>
    b64Char (b1 / 4) :: b64Char (b1 % 4 * 16 + b2 / 16) ::
      b64Char (b2 % 16 * 4 + b3 / 64) :: b64Char (b3 % 64) :: base64urlEncode rest

/-- UTF-8 bytes of an ASCII string (codepoints below 128 encode as
themselves; every string passed here is ASCII). -/
def asciiBytes (s : String) : List Nat := s.data.map Char.toNat

/-- The fixed token header `{"alg":"HS256","typ":"JWT"}` as serialized by
`JSON.stringify` in the source. -/
def headerJson : String := "\x7b\"alg\":\"HS256\",\"typ\":\"JWT\"\x7d"

/-- Source `HEADER_B64`: base64url of the fixed header JSON. -/
def headerB64String : String := String.mk (base64urlEncode (asciiBytes headerJson))

/-- Source `timingSafeEqual`: a byte-length check followed by a
constant-time byte comparison; its result coincides with string
equality. -/
def timingSafeEqualStr (a b : String) : Bool := a == b

/-- Source `signAuthToken`, parameterized by the keyed hash
(`crypto.createHmac("sha256", secret)…digest("base64url")`) and the body
encoder (`Buffer.from(JSON.stringify({userId, username, exp}))
.toString("base64url")`), both host primitives. `now` is the issuance
clock reading and the default time-to-live is 24 hours in
milliseconds. -/
def signAuthToken (hmac : String → String) (encodeBody : Int → String → Rat → String)
    (now : Rat) (userId : Int) (username : String) (ttlMs : Option Rat) : String :=
  let exp := now + ttlMs.getD 86400000
  let body := encodeBody userId username exp
  headerB64String ++ "." ++ body ++ "." ++ hmac (headerB64String ++ "." ++ body)

/-- Source `verifyAuthToken`, parameterized by the keyed hash and the
body decoder (`JSON.parse` of the base64url-decoded body; `none` models
a parse exception, which the source catches). The expiry test is the
source's `typeof payload.exp !== "number" || payload.exp < Date.now()`;
reading `exp` off a non-object parse result yields `undefined` (or
throws on `null`, which the catch also maps to invalid), so both are
`none` here. -/
def verifyTokenString (hmac : String → String) (parseBody : String → Option JsVal)
    (now : Rat) (t : String) : Option JsVal :=
  if t = "" then none
  else
    match jsSplit '.' t with
    | [header, body, signature] =>
      if header ≠ headerB64String then none
      else if ¬ timingSafeEqualStr (hmac (header ++ "." ++ body)) signature then none
      else
        match parseBody body with
        | none => none
        | some payload =>
          match payload.getField "exp" with
          | .num q => if q < now then none else some payload
          | _ => none
    | _ => none

/-- Entry point of the source function: `if (!token) return null` handles
both an absent token and the empty string, the latter through the
emptiness check in `verifyTokenString`. -/
def verifyAuthToken (hmac : String → String) (parseBody : String → Option JsVal)
    (now : Rat) (token : Option String) : Option JsVal :=
  match token with
  | none => none
  | some t => verifyTokenString hmac parseBody now t

/-- Unary block code for one character: `toNat` marks, then a stop
character. Used to build a concrete injective keyed hash for witnesses;
its image avoids `'.'` entirely. -/
def unaryCode (c : Char) : List Char := List.replicate c.toNat 'a' ++ ['s']

/-- Concatenation of the per-character unary blocks. -/
def unaryConcat : List Char → List Char
  | [] => []
  | c :: cs => unaryCode c ++ unaryConcat cs

/-- A concrete injective, dot-free string hash: stand-in keyed hash for
witness instantiations. -/
def unaryEncode (s : String) : String := String.mk (unaryConcat s.data)

/-! Lemma toolkit: insertion-ordered maps. -/

theorem lookupKey_nil {α : Type} (k : String) : lookupKey ([] : List (String × α)) k = none := rfl

theorem lookupKey_cons {α : Type} (p : String × α) (rest : List (String × α)) (k : String) :
    lookupKey (p :: rest) k = if p.1 = k then some p.2 else lookupKey rest k := by
  by_cases h : p.1 = k <;> simp [lookupKey, List.find?_cons, h]

theorem lookupKey_upsert_self {α : Type} (m : List (String × α)) (k : String) (v : α) :
    lookupKey (upsert m k v) k = some v := by
  induction m with
  | nil => simp [upsert, lookupKey_cons]
  | cons p rest ih =>
    by_cases h : p.1 = k
    · simp [upsert, h, lookupKey_cons]
    · simp [upsert, h, lookupKey_cons, ih]

theorem lookupKey_upsert_ne {α : Type} (m : List (String × α)) (k k' : String) (v : α)
    (h : k' ≠ k) : lookupKey (upsert m k v) k' = lookupKey m k' := by
  induction m with
  | nil => simp [upsert, lookupKey_cons, lookupKey_nil, Ne.symm h]
  | cons p rest ih =>
    by_cases hp : p.1 = k
    · subst hp
      simp [upsert, lookupKey_cons, Ne.symm h]
    · simp only [upsert, if_neg hp, lookupKey_cons, ih]

theorem lookupKey_eraseKey {α : Type} (m : List (String × α)) (k k' : String) :
    lookupKey (eraseKey m k) k' = if k' = k then none else lookupKey m k' := by
  induction m with
  | nil => simp [eraseKey, lookupKey_nil]
  | cons p rest ih =>
    by_cases hp : p.1 = k
    · have hdrop : eraseKey (p :: rest) k = eraseKey rest k := by
        simp [eraseKey, List.filter_cons, hp]
      rw [hdrop, ih]
      by_cases hk : k' = k
      · simp [hk]
      · simp only [if_neg hk, lookupKey_cons]
        have : p.1 ≠ k' := by
          rw [hp]; exact Ne.symm hk
        rw [if_neg this]
    · have hkeep : eraseKey (p :: rest) k = p :: eraseKey rest k := by
        simp [eraseKey, List.filter_cons, hp]
      rw [hkeep, lookupKey_cons, ih, lookupKey_cons]
      by_cases hk : k' = k
      · subst hk
        simp [hp]
      · simp [hk]

theorem lookupKey_filter {α : Type} (m : List (String × α)) (pred : String → Bool) (k : String) :
    lookupKey (m.filter (fun p => pred p.1)) k = if pred k then lookupKey m k else none := by
  induction m with
  | nil => simp [lookupKey_nil]
  | cons p rest ih =>
    by_cases hp : pred p.1
    · rw [List.filter_cons_of_pos (by simpa using hp), lookupKey_cons, ih, lookupKey_cons]
      by_cases hk : p.1 = k
      · subst hk
        simp [hp]
      · simp [hk]
    · rw [List.filter_cons_of_neg (by simpa using hp), ih, lookupKey_cons]
      by_cases hk : p.1 = k
      · subst hk
        simp [hp]
      · simp [hk]

theorem lookupKey_foldl_eraseKey {α : Type} (ids : List String)
    (base : List (String × α)) (k : String) :
    lookupKey (ids.foldl (fun acc ident => eraseKey acc ident) base) k =
      if ids.contains k then none else lookupKey base k := by
  induction ids generalizing base with
  | nil => simp
  | cons i rest ih =>
    simp only [List.foldl_cons]
    rw [ih, lookupKey_eraseKey]
    by_cases hk : k = i
    · subst hk
      simp
    · by_cases hr : rest.contains k
      · simp [hr, List.contains_cons, hk]
      · simp [hr, List.contains_cons, hk]

/-- Key-presence after a fold of a step that always upserts at the
element's key (the stored value may depend on the accumulated map):
present iff present before or keyed by some list element. -/
theorem isSome_lookupKey_foldl_upsert {α β : Type}
    (f : List (String × α) → β → List (String × α)) (key : β → String)
    (hf : ∀ acc m, ∃ v, f acc m = upsert acc (key m) v)
    (l : List β) (base : List (String × α)) (k : String) :
    (lookupKey (l.foldl f base) k).isSome =
      ((lookupKey base k).isSome || l.any (fun m => key m = k)) := by
  induction l generalizing base with
  | nil => simp
  | cons m rest ih =>
    obtain ⟨v, hv⟩ := hf base m
    simp only [List.foldl_cons, List.any_cons, hv, ih]
    by_cases h : key m = k
    · subst h
      simp [lookupKey_upsert_self]
    · rw [lookupKey_upsert_ne _ _ _ _ (fun hc => h hc.symm)]
      simp [h]

/-- Such a fold never touches keys outside the fold's key list. -/
theorem lookupKey_foldl_upsert_notMem {α β : Type}
    (f : List (String × α) → β → List (String × α)) (key : β → String)
    (hf : ∀ acc m, ∃ v, f acc m = upsert acc (key m) v)
    (l : List β) (base : List (String × α)) (k : String)
    (h : ∀ m ∈ l, key m ≠ k) :
    lookupKey (l.foldl f base) k = lookupKey base k := by
  induction l generalizing base with
  | nil => rfl
  | cons m rest ih =>
    obtain ⟨v, hv⟩ := hf base m
    simp only [List.foldl_cons, hv]
    rw [ih _ (fun x hx => h x (List.mem_cons_of_mem _ hx)),
      lookupKey_upsert_ne _ _ _ _ (fun hc => h m (List.mem_cons_self _ _) hc.symm)]

/-! Lemma toolkit: the 60-entry history cap. -/

theorem sliceLast60_of_le {α : Type} (xs : List α) (h : xs.length ≤ 60) :
    sliceLast60 xs = xs := by
  unfold sliceLast60
  have : xs.length - 60 = 0 := by omega
  rw [this, List.drop_zero]

theorem length_sliceLast60 {α : Type} (xs : List α) :
    (sliceLast60 xs).length = xs.length - (xs.length - 60) := by
  simp [sliceLast60]

theorem length_sliceLast60_le {α : Type} (xs : List α) : (sliceLast60 xs).length ≤ 60 := by
  rw [length_sliceLast60]; omega

/-- Pushing splits as: drop enough from the front, then append the new
point — the new point always survives the cap. -/
theorem pushHistoryPoint_eq (xs : List RouterHistoryPoint) (p : RouterHistoryPoint) :
    pushHistoryPoint xs p = xs.drop (xs.length + 1 - 60) ++ [p] := by
  unfold pushHistoryPoint sliceLast60
  rw [List.drop_append_eq_append_drop]
  have h₂ : (xs ++ [p]).length - 60 - xs.length = 0 := by
    simp only [List.length_append, List.length_singleton]
    omega
  rw [h₂, List.drop_zero]
  congr 2
  simp

theorem length_pushHistoryPoint_le (xs : List RouterHistoryPoint) (p : RouterHistoryPoint) :
    (pushHistoryPoint xs p).length ≤ 60 :=
  length_sliceLast60_le _

/-- Pushing onto an already-capped sequence re-caps: the cap taken before
a push is absorbed by the cap taken after it. -/
theorem pushHistoryPoint_sliceLast60 (xs : List RouterHistoryPoint) (p : RouterHistoryPoint) :
    pushHistoryPoint (sliceLast60 xs) p = sliceLast60 (xs ++ [p]) := by
  have h₂ := pushHistoryPoint_eq xs p
  unfold pushHistoryPoint at h₂
  rw [pushHistoryPoint_eq, h₂]
  congr 1
  simp only [sliceLast60, List.length_drop, List.drop_drop]
  congr 1
  omega

/-- Folding pushes from the empty history yields exactly the last 60
points, in push order. -/
theorem foldl_pushHistoryPoint_general (ps : List RouterHistoryPoint) :
    ∀ acc, List.foldl pushHistoryPoint (sliceLast60 acc) ps = sliceLast60 (acc ++ ps) := by
  induction ps with
  | nil =>
    intro acc
    simp
  | cons p ps ih =>
    intro acc
    rw [List.foldl_cons, pushHistoryPoint_sliceLast60, ih (acc ++ [p]), List.append_assoc,
      List.singleton_append]

theorem foldl_pushHistoryPoint_eq_sliceLast60 (ps : List RouterHistoryPoint) :
    List.foldl pushHistoryPoint [] ps = sliceLast60 ps := by
  have h := foldl_pushHistoryPoint_general ps []
  simpa [sliceLast60] using h

/-! Lemma toolkit: JavaScript-style split. -/

theorem splitChList_cons (sep c : Char) (rest : List Char) :
    splitChList sep (c :: rest) =
      if c = sep then [] :: splitChList sep rest
      else
        match splitChList sep rest with
        | a :: tail => (c :: a) :: tail
        | [] => [[c]] := rfl

theorem splitChList_ne_nil (sep : Char) (cs : List Char) : splitChList sep cs ≠ [] := by
  cases cs with
  | nil => simp [splitChList]
  | cons c rest =>
    rw [splitChList_cons]
    by_cases h : c = sep
    · simp [h]
    · simp only [if_neg h]
      cases splitChList sep rest <;> simp

theorem splitChList_sepFree (sep : Char) (ws : List Char) (h : ∀ c ∈ ws, c ≠ sep) :
    splitChList sep ws = [ws] := by
  induction ws with
  | nil => rfl
  | cons c rest ih =>
    rw [splitChList_cons, if_neg (h c (List.mem_cons_self c rest)),
      ih (fun x hx => h x (List.mem_cons_of_mem _ hx))]

theorem splitChList_append (sep : Char) (xs ys : List Char) (h : ∀ c ∈ xs, c ≠ sep) :
    splitChList sep (xs ++ sep :: ys) = xs :: splitChList sep ys := by
  induction xs with
  | nil => simp [splitChList_cons]
  | cons c rest ih =>
    have hc : c ≠ sep := h c (List.mem_cons_self c rest)
    rw [List.cons_append, splitChList_cons, if_neg hc,
      ih (fun x hx => h x (List.mem_cons_of_mem _ hx))]

theorem length_splitChList (sep : Char) (cs : List Char) :
    (splitChList sep cs).length = cs.count sep + 1 := by
  induction cs with
  | nil => rfl
  | cons c rest ih =>
    rw [splitChList_cons]
    by_cases h : c = sep
    · subst h
      simp [List.count_cons, ih]
    · simp only [if_neg h]
      have hne := splitChList_ne_nil sep rest
      rcases hr : splitChList sep rest with _ | ⟨a, tail⟩
      · exact absurd hr hne
      · have : (List.count sep (c :: rest)) = rest.count sep := by
          simp [List.count_cons, h]
        rw [this, ← ih, hr]
        simp

theorem stringMk_data (s : String) : String.mk s.data = s := rfl

/-- Splitting a three-part dotted concatenation of dot-free pieces. -/
theorem jsSplit_three (a b c : String)
    (ha : ∀ ch ∈ a.data, ch ≠ '.') (hb : ∀ ch ∈ b.data, ch ≠ '.')
    (hc : ∀ ch ∈ c.data, ch ≠ '.') :
    jsSplit '.' (a ++ "." ++ b ++ "." ++ c) = [a, b, c] := by
  have hdata : (a ++ "." ++ b ++ "." ++ c).data = a.data ++ '.' :: (b.data ++ '.' :: c.data) := by
    simp [String.data_append]
  unfold jsSplit
  rw [hdata, splitChList_append _ _ _ ha, splitChList_append _ _ _ hb,
    splitChList_sepFree _ _ hc]
  simp [stringMk_data]

/-- The number of parts a split produces, in terms of separator count. -/
theorem length_jsSplit (sep : Char) (s : String) :
    (jsSplit sep s).length = s.data.count sep + 1 := by
  simp [jsSplit, length_splitChList]

/-! Lemma toolkit: the unary stand-in hash. -/

theorem unaryBlock_inj : ∀ {n m : Nat} {r₁ r₂ : List Char},
    List.replicate n 'a' ++ 's' :: r₁ = List.replicate m 'a' ++ 's' :: r₂ → n = m ∧ r₁ = r₂ := by
  intro n
  induction n with
  | zero =>
    intro m r₁ r₂ h
    cases m with
    | zero => simpa using h
    | succ m =>
      rw [List.replicate_succ] at h
      simp at h
  | succ n ih =>
    intro m r₁ r₂ h
    cases m with
    | zero =>
      rw [List.replicate_succ] at h
      simp at h
    | succ m =>
      rw [List.replicate_succ, List.replicate_succ] at h
      simp only [List.cons_append, List.cons.injEq, true_and] at h
      obtain ⟨h₁, h₂⟩ := ih h
      exact ⟨by omega, h₂⟩

theorem unaryConcat_inj : ∀ (a b : List Char), unaryConcat a = unaryConcat b → a = b := by
  intro a
  induction a with
  | nil =>
    intro b h
    cases b with
    | nil => rfl
    | cons d bs =>
      have hlen := congrArg List.length h
      simp [unaryConcat, unaryCode] at hlen
      omega
  | cons c as ih =>
    intro b h
    cases b with
    | nil =>
      have hlen := congrArg List.length h
      simp [unaryConcat, unaryCode] at hlen
    | cons d bs =>
      simp only [unaryConcat, unaryCode, List.append_assoc, List.singleton_append] at h
      obtain ⟨h₁, h₂⟩ := unaryBlock_inj h
      have hc : c = d := by
        have := congrArg Char.ofNat h₁
        simpa [Char.ofNat_toNat] using this
      rw [hc, ih bs h₂]

theorem unaryEncode_inj (a b : String) (h : unaryEncode a = unaryEncode b) : a = b := by
  have hdata : unaryConcat a.data = unaryConcat b.data := by
    have := congrArg String.data h
    simpa [unaryEncode] using this
  have := unaryConcat_inj _ _ hdata
  cases a
  cases b
  exact congrArg String.mk this

theorem unaryConcat_chars (cs : List Char) :
    ∀ c ∈ unaryConcat cs, c = 'a' ∨ c = 's' := by
  induction cs with
  | nil => intro c hc; simp [unaryConcat] at hc
  | cons x xs ih =>
    intro c hc
    simp only [unaryConcat, unaryCode, List.append_assoc, List.singleton_append,
      List.mem_append, List.mem_cons] at hc
    rcases hc with h | h | h
    · exact Or.inl (List.eq_of_mem_replicate h)
    · exact Or.inr h
    · exact ih c h

theorem unaryEncode_no_dot (s : String) : ∀ c ∈ (unaryEncode s).data, c ≠ '.' := by
  intro c hc
  have := unaryConcat_chars s.data c (by simpa [unaryEncode, stringMk_data] using hc)
  rcases this with h | h <;> simp [h]

theorem headerB64String_no_dot : ∀ c ∈ headerB64String.data, c ≠ '.' := by
  decide

/-! Lemma toolkit: peak traffic as a list maximum. -/

/-- The numeric receive/transmit contributions of one interface, with
string coercion and non-numeric exclusion via `metricToNumber`. -/
def ifaceNumericValues (iface : RouterInterfaceStat) : List Rat :=
  [metricToNumber iface.rx, metricToNumber iface.tx].reduceOption

/-- All numeric receive/transmit values across a router's interfaces, in
order — the collection whose maximum the claim describes. -/
def interfaceNumericValues (interfaces : List RouterInterfaceStat) : List Rat :=
  (interfaces.map ifaceNumericValues).flatten

/-- Accumulate a running maximum over optional state. -/
def optMaxStep (acc : Option Rat) (v : Rat) : Option Rat :=
  match acc with
  | none => some v
  | some a => some (max a v)

theorem foldl_optMaxStep_some (l : List Rat) (a : Rat) :
    l.foldl optMaxStep (some a) = some (l.foldl max a) := by
  induction l generalizing a with
  | nil => rfl
  | cons v rest ih => simp [List.foldl_cons, optMaxStep, ih]

theorem foldl_optMaxStep_none (l : List Rat) : l.foldl optMaxStep none = l.max? := by
  cases l with
  | nil => rfl
  | cons v rest =>
    rw [List.foldl_cons]
    show List.foldl optMaxStep (some v) rest = _
    rw [foldl_optMaxStep_some]
    rfl

theorem if_lt_some_max (p l : Rat) : (if p < l then some l else some p) = some (max p l) := by
  rcases le_or_lt l p with h | h
  · rw [if_neg (not_lt.2 h), max_eq_left h]
  · rw [if_pos h, max_eq_right h.le]

theorem if_lt_or_some_max (p a b : Rat) :
    (if p < a ∨ p < b then some (a ⊔ b) else some p) = some (p ⊔ (a ⊔ b)) := by
  by_cases h : p < a ⊔ b
  · rw [if_pos (lt_sup_iff.mp h), max_eq_right h.le]
  · rw [if_neg (fun hc => h (lt_sup_iff.mpr hc)), max_eq_left (not_lt.mp h)]

theorem peakStep_eq_foldl (acc : Option Rat) (iface : RouterInterfaceStat) :
    peakStep acc iface = (ifaceNumericValues iface).foldl optMaxStep acc := by
  unfold peakStep ifaceNumericValues
  rcases metricToNumber iface.rx with _ | a <;> rcases metricToNumber iface.tx with _ | b <;>
    rcases acc with _ | p <;>
    simp [List.reduceOption, optMaxStep, List.max?, if_lt_some_max, if_lt_or_some_max, max_assoc]

theorem foldl_peakStep_general (interfaces : List RouterInterfaceStat) :
    ∀ acc, interfaces.foldl peakStep acc =
      (interfaceNumericValues interfaces).foldl optMaxStep acc := by
  induction interfaces with
  | nil =>
    intro acc
    rfl
  | cons i rest ih =>
    intro acc
    rw [List.foldl_cons, ih, peakStep_eq_foldl]
    unfold interfaceNumericValues
    rw [List.map_cons, List.flatten_cons, List.foldl_append]

/-- The source's running-maximum fold equals the maximum of the full
value collection. -/
theorem calculatePeak_eq_max (interfaces : List RouterInterfaceStat) :
    calculatePeakTrafficFromInterfaces interfaces = (interfaceNumericValues interfaces).max? := by
  rw [calculatePeakTrafficFromInterfaces, foldl_peakStep_general, foldl_optMaxStep_none]

/-! Helper facts for the verification-path theorems. -/

theorem ne_empty_of_split_three (t h b sg : String) (hs : jsSplit '.' t = [h, b, sg]) :
    t ≠ "" := by
  intro hteq
  subst hteq
  have hempty : jsSplit '.' "" = [""] := rfl
  rw [hempty] at hs
  simp at hs

theorem verify_parts_ne_three (hmac : String → String) (parseBody : String → Option JsVal)
    (now : Rat) (t : String) (h : (jsSplit '.' t).length ≠ 3) :
    verifyAuthToken hmac parseBody now (some t) = none := by
  show verifyTokenString hmac parseBody now t = none
  unfold verifyTokenString
  by_cases ht : t = ""
  · simp [ht]
  · rw [if_neg ht]
    revert h
    generalize jsSplit '.' t = parts
    intro h
    rcases parts with _ | ⟨x1, _ | ⟨x2, _ | ⟨x3, _ | rest⟩⟩⟩
    · rfl
    · rfl
    · rfl
    · exact absurd rfl h
    · rfl

/-- Evaluation of verification once the token splits into exactly three
segments. -/
theorem verifyTokenString_three (hmac : String → String) (parseBody : String → Option JsVal)
    (now : Rat) (t h b sg : String) (hs : jsSplit '.' t = [h, b, sg]) :
    verifyTokenString hmac parseBody now t =
      (if h ≠ headerB64String then none
       else if ¬ timingSafeEqualStr (hmac (h ++ "." ++ b)) sg then none
       else
         match parseBody b with
         | none => none
         | some payload =>
           match payload.getField "exp" with
           | .num q => if q < now then none else some payload
           | _ => none) := by
  unfold verifyTokenString
  rw [if_neg (ne_empty_of_split_three t h b sg hs), hs]

theorem verify_header_mismatch (hmac : String → String) (parseBody : String → Option JsVal)
    (now : Rat) (t h b sg : String) (hs : jsSplit '.' t = [h, b, sg])
    (hh : h ≠ headerB64String) : verifyAuthToken hmac parseBody now (some t) = none := by
  show verifyTokenString hmac parseBody now t = none
  rw [verifyTokenString_three hmac parseBody now t h b sg hs, if_pos hh]

theorem verify_sig_mismatch (hmac : String → String) (parseBody : String → Option JsVal)
    (now : Rat) (t h b sg : String) (hs : jsSplit '.' t = [h, b, sg])
    (hm : hmac (h ++ "." ++ b) ≠ sg) : verifyAuthToken hmac parseBody now (some t) = none := by
  show verifyTokenString hmac parseBody now t = none
  rw [verifyTokenString_three hmac parseBody now t h b sg hs]
  by_cases hh : h ≠ headerB64String
  · rw [if_pos hh]
  · rw [if_neg hh, if_pos (by simp [timingSafeEqualStr, hm])]

theorem verify_parse_fail (hmac : String → String) (parseBody : String → Option JsVal)
    (now : Rat) (t h b sg : String) (hs : jsSplit '.' t = [h, b, sg])
    (hp : parseBody b = none) : verifyAuthToken hmac parseBody now (some t) = none := by
  show verifyTokenString hmac parseBody now t = none
  rw [verifyTokenString_three hmac parseBody now t h b sg hs]
  by_cases hh : h ≠ headerB64String
  · rw [if_pos hh]
  · rw [if_neg hh]
    by_cases hsig : timingSafeEqualStr (hmac (h ++ "." ++ b)) sg
    · rw [if_neg (not_not_intro hsig), hp]
    · rw [if_pos hsig]

/-! The claims. -/

/-- C6: for every router, folding any sequence of history-point pushes
from an empty history retains exactly the last 60 points in push
(chronological, newest-last) order — so at most 60 are ever held, and 70
sequential pushes keep the latest 60 with the oldest 10 discarded. -/
theorem claim_C6_history_cap :
    (∀ ps : List RouterHistoryPoint,
        List.foldl pushHistoryPoint [] ps = ps.drop (ps.length - 60) ∧
          (List.foldl pushHistoryPoint [] ps).length ≤ 60) ∧
      ∀ f : Nat → RouterHistoryPoint,
        List.foldl pushHistoryPoint [] ((List.range 70).map f) =
          ((List.range 70).map f).drop 10 := by
  constructor
  · intro ps
    constructor
    · rw [foldl_pushHistoryPoint_eq_sliceLast60]
      rfl
    · rw [foldl_pushHistoryPoint_eq_sliceLast60]
      exact length_sliceLast60_le ps
  · intro f
    rw [foldl_pushHistoryPoint_eq_sliceLast60]
    simp [sliceLast60]

/-- C8: peak interface traffic is the maximum of all numeric rx/tx values
across the router's interfaces (`null` when none exists), where the
string `"12.4 Mbps"` contributes `12.4` and the non-numeric string
`"n/a"` is excluded. -/
theorem claim_C8_peak_traffic :
    (∀ interfaces : List RouterInterfaceStat,
        calculatePeakTrafficFromInterfaces interfaces =
          (interfaceNumericValues interfaces).max?) ∧
      metricToNumber (some (.str "12.4 Mbps")) = some (124 / 10) ∧
      metricToNumber (some (.str "n/a")) = none := by
  refine ⟨calculatePeak_eq_max, ?_, rfl⟩
  have hfind : findDecimalMatch ("12.4 Mbps".data.filter (fun c => c ≠ ',')) =
      some (false, ['1', '2'], ['4']) := by decide
  show parseDecimalString "12.4 Mbps" = some (124 / 10)
  unfold parseDecimalString
  rw [hfind]
  show some (decimalToRat false ['1', '2'] ['4']) = some (124 / 10)
  have h12 : natOfDigits ['1', '2'] = 12 := by decide
  have h4 : natOfDigits ['4'] = 4 := by decide
  unfold decimalToRat
  rw [h12, h4]
  norm_num

/-- C5: verification is a total function collapsing malformed inputs to
the invalid result (`none`) rather than throwing: absent and empty
tokens, tokens with other than three dot-separated segments (such as
"a.b" and "a.b.c.d"), a wrong header segment, a signature mismatch, and
an unparseable body all verify to `none`, for every keyed hash, body
parser and clock. -/
theorem claim_C5_verify_total :
    ∀ (hmac : String → String) (parseBody : String → Option JsVal) (now : Rat),
      verifyAuthToken hmac parseBody now none = none ∧
      verifyAuthToken hmac parseBody now (some "") = none ∧
      verifyAuthToken hmac parseBody now (some "a.b") = none ∧
      verifyAuthToken hmac parseBody now (some "a.b.c.d") = none ∧
      (∀ t, (jsSplit '.' t).length ≠ 3 →
        verifyAuthToken hmac parseBody now (some t) = none) ∧
      (∀ t h b sg, jsSplit '.' t = [h, b, sg] → h ≠ headerB64String →
        verifyAuthToken hmac parseBody now (some t) = none) ∧
      (∀ t h b sg, jsSplit '.' t = [h, b, sg] → hmac (h ++ "." ++ b) ≠ sg →
        verifyAuthToken hmac parseBody now (some t) = none) ∧
      (∀ t h b sg, jsSplit '.' t = [h, b, sg] → parseBody b = none →
        verifyAuthToken hmac parseBody now (some t) = none) := by
  intro hmac parseBody now
  refine ⟨rfl, rfl, rfl, rfl, ?_, ?_, ?_, ?_⟩
  · exact fun t h => verify_parts_ne_three hmac parseBody now t h
  · exact fun t h b sg hs hh => verify_header_mismatch hmac parseBody now t h b sg hs hh
  · exact fun t h b sg hs hm => verify_sig_mismatch hmac parseBody now t h b sg hs hm
  · exact fun t h b sg hs hp => verify_parse_fail hmac parseBody now t h b sg hs hp

/-- C5 witness: the conditional parts of the totality theorem discharged
at concrete tokens. -/
theorem claim_C5_verify_total_witness :
    ((jsSplit '.' "x").length ≠ 3 ∧
        verifyAuthToken unaryEncode (fun _ => none) 0 (some "x") = none) ∧
      (jsSplit '.' "h.b.s" = ["h", "b", "s"] ∧ "h" ≠ headerB64String ∧
        verifyAuthToken unaryEncode (fun _ => none) 0 (some "h.b.s") = none) ∧
      (unaryEncode ("h" ++ "." ++ "b") ≠ "s" ∧
        verifyAuthToken unaryEncode (fun _ => none) 0 (some "h.b.s") = none) ∧
      ((fun _ => (none : Option JsVal)) "b" = none ∧
        verifyAuthToken unaryEncode (fun _ => none) 0 (some "h.b.s") = none) :=
  ⟨⟨by decide, (claim_C5_verify_total unaryEncode (fun _ => none) 0).2.2.2.2.1 "x" (by decide)⟩,
    ⟨by decide, by decide,
      (claim_C5_verify_total unaryEncode (fun _ => none) 0).2.2.2.2.2.1 "h.b.s" "h" "b" "s"
        (by decide) (by decide)⟩,
    ⟨by decide,
      (claim_C5_verify_total unaryEncode (fun _ => none) 0).2.2.2.2.2.2.1 "h.b.s" "h" "b" "s"
        (by decide) (by decide)⟩,
    ⟨rfl,
      (claim_C5_verify_total unaryEncode (fun _ => none) 0).2.2.2.2.2.2.2 "h.b.s" "h" "b" "s"
        (by decide) rfl⟩⟩

/-- C3 (amended): for every token that splits into three segments with
the expected header, a matching signature, and a parseable body, the
result is determined by the source's expiry test — invalid exactly when
the parsed `exp` is not a number value or is strictly less than the
clock; the claims are returned whenever `exp` is a number with
`exp ≥ now`, including the boundary `exp = now`. -/
theorem claim_C3_expiry_check (hmac : String → String) (parseBody : String → Option JsVal)
    (now : Rat) (t h b sg : String) (payload : JsVal)
    (hs : jsSplit '.' t = [h, b, sg]) (hh : h = headerB64String)
    (hm : hmac (h ++ "." ++ b) = sg) (hp : parseBody b = some payload) :
    verifyAuthToken hmac parseBody now (some t) =
      (match payload.getField "exp" with
       | .num q => if q < now then none else some payload
       | _ => none) := by
  show verifyTokenString hmac parseBody now t = _
  rw [verifyTokenString_three hmac parseBody now t h b sg hs,
    if_neg (not_not_intro hh), if_neg (by simp [timingSafeEqualStr, hm]), hp]

/-- C3 witness: the amended expiry characterization applied at a concrete
token with a matching constant hash and a stub parser. -/
theorem claim_C3_expiry_check_witness :
    jsSplit '.' (headerB64String ++ ".B.S") = [headerB64String, "B", "S"] ∧
      verifyAuthToken (fun _ => "S") (fun _ => some (JsVal.obj [("exp", JsVal.num 5)])) 4
          (some (headerB64String ++ ".B.S")) =
        some (JsVal.obj [("exp", JsVal.num 5)]) := by
  have hs : jsSplit '.' (headerB64String ++ ".B.S") = [headerB64String, "B", "S"] := by decide
  refine ⟨hs, ?_⟩
  have happ := claim_C3_expiry_check (fun _ => "S")
    (fun _ => some (JsVal.obj [("exp", JsVal.num 5)])) 4 (headerB64String ++ ".B.S")
    headerB64String "B" "S" (JsVal.obj [("exp", JsVal.num 5)]) hs rfl rfl rfl
  rw [happ]
  show (if (5 : Rat) < 4 then none else some (JsVal.obj [("exp", JsVal.num 5)])) = _
  rw [if_neg (by norm_num)]

/-- C3 counterexample: a well-formed token whose signature matches and
whose parsed `exp` equals the clock instant verifies successfully — the
claim demands the invalid result for every `exp ≤ now`. -/
theorem claim_C3_counterexample :
    verifyAuthToken (fun _ => "S") (fun _ => some (JsVal.obj [("exp", JsVal.num 0)])) 0
        (some (headerB64String ++ ".B.S")) =
      some (JsVal.obj [("exp", JsVal.num 0)]) ∧
      (JsVal.obj [("exp", JsVal.num 0)]).getField "exp" = JsVal.num 0 ∧ ((0 : Rat) ≤ 0) := by
  refine ⟨?_, rfl, le_refl 0⟩
  have hs : jsSplit '.' (headerB64String ++ ".B.S") = [headerB64String, "B", "S"] := by decide
  show verifyTokenString (fun _ => "S") (fun _ => some (JsVal.obj [("exp", JsVal.num 0)])) 0
      (headerB64String ++ ".B.S") = _
  rw [verifyTokenString_three _ _ _ _ headerB64String "B" "S" hs,
    if_neg (not_not_intro rfl), if_neg (by simp [timingSafeEqualStr])]
  show (if (0 : Rat) < 0 then none else some (JsVal.obj [("exp", JsVal.num 0)])) = _
  rw [if_neg (lt_irrefl 0)]

/-- C4: a token issued by `signAuthToken` verifies successfully at every
instant strictly before issuance time plus time-to-live, returning
exactly the encoded claims, whose `expires_at` is issuance time plus
time-to-live. The hypotheses record what the host primitives guarantee:
the base64url body and signature contain no dot, and JSON decode inverts
encode on the signed body. -/
theorem claim_C4_round_trip (hmac : String → String) (encodeBody : Int → String → Rat → String)
    (parseBody : String → Option JsVal) (now t ttl : Rat) (userId : Int) (username : String)
    (payload : JsVal)
    (hUser : 0 < userId) (hName : username ≠ "") (hTtl : 0 < ttl)
    (hBodyDot : ∀ c ∈ (encodeBody userId username (now + ttl)).data, c ≠ '.')
    (hSigDot : ∀ c ∈
      (hmac (headerB64String ++ "." ++ encodeBody userId username (now + ttl))).data, c ≠ '.')
    (hParse : parseBody (encodeBody userId username (now + ttl)) = some payload)
    (hU : payload.getField "userId" = .num userId)
    (hN : payload.getField "username" = .str username)
    (hExp : payload.getField "exp" = .num (now + ttl))
    (hT : t < now + ttl) :
    verifyAuthToken hmac parseBody t
        (some (signAuthToken hmac encodeBody now userId username (some ttl))) =
      some payload ∧
      payload.getField "userId" = .num userId ∧
      payload.getField "username" = .str username ∧
      payload.getField "exp" = .num (now + ttl) := by
  refine ⟨?_, hU, hN, hExp⟩
  show verifyTokenString hmac parseBody t
      (headerB64String ++ "." ++ encodeBody userId username (now + ttl) ++ "." ++
        hmac (headerB64String ++ "." ++ encodeBody userId username (now + ttl))) = some payload
  have hs := jsSplit_three headerB64String (encodeBody userId username (now + ttl))
    (hmac (headerB64String ++ "." ++ encodeBody userId username (now + ttl)))
    headerB64String_no_dot hBodyDot hSigDot
  rw [verifyTokenString_three _ _ _ _ _ _ _ hs, if_neg (not_not_intro rfl),
    if_neg (by simp [timingSafeEqualStr]), hParse]
  show (match payload.getField "exp" with
    | JsVal.num q => if q < t then none else some payload
    | _ => none) = some payload
  rw [hExp]
  show (if now + ttl < t then none else some payload) = some payload
  rw [if_neg (lt_asymm hT)]

/-- Concrete payload used by the round-trip witness. -/
def wPayloadC4 : JsVal :=
  .obj [("userId", .num 1), ("username", .str "admin"), ("exp", .num 1000)]

/-- C4 witness: the round trip discharged at a concrete issuance with the
unary stand-in hash, a constant body encoding, and its exact inverse as
parser. -/
theorem claim_C4_round_trip_witness :
    (0 : Int) < 1 ∧ (0 : Rat) < 1000 ∧ (500 : Rat) < 0 + 1000 ∧
      verifyAuthToken unaryEncode
          (fun s => if s = "B" then some wPayloadC4 else none) 500
          (some (signAuthToken unaryEncode (fun _ _ _ => "B") 0 1 "admin" (some 1000))) =
        some wPayloadC4 := by
  refine ⟨by decide, by norm_num, by norm_num, ?_⟩
  exact (claim_C4_round_trip unaryEncode (fun _ _ _ => "B")
    (fun s => if s = "B" then some wPayloadC4 else none) 0 500 1000 1 "admin" wPayloadC4
    (by decide) (by decide) (by norm_num)
    (by decide)
    (fun c hc => unaryEncode_no_dot (headerB64String ++ "." ++ "B") c hc)
    rfl rfl rfl
    (by rw [show (0 : Rat) + 1000 = 1000 from by norm_num]; rfl)
    (by norm_num)).1

/-- Replacing the character at one position of a string. -/
def replaceCharAt (s : String) (i : Nat) (c : Char) : String := String.mk (s.data.set i c)

/-- Rejection of any token whose body segment differs from the signed
body while carrying the original signature: either the altered body
introduces a dot and the token no longer has three segments, or the
recomputed signature differs from the carried one by collision-freeness
of the keyed hash. -/
theorem verify_reject_of_body_ne (hmac : String → String) (parseBody : String → Option JsVal)
    (t : Rat) (body body' : String)
    (hInj : ∀ a b : String, hmac a = hmac b → a = b)
    (hSigDot : ∀ c ∈ (hmac (headerB64String ++ "." ++ body)).data, c ≠ '.')
    (hNe : body' ≠ body) :
    verifyAuthToken hmac parseBody t
        (some (headerB64String ++ "." ++ body' ++ "." ++
          hmac (headerB64String ++ "." ++ body))) = none := by
  by_cases hd : ∀ c ∈ body'.data, c ≠ '.'
  · have hs := jsSplit_three headerB64String body' (hmac (headerB64String ++ "." ++ body))
      headerB64String_no_dot hd hSigDot
    apply verify_sig_mismatch hmac parseBody t _ _ _ _ hs
    intro hcol
    apply hNe
    have hcat := hInj _ _ hcol
    have hdata := congrArg String.data hcat
    simp only [String.data_append] at hdata
    have := List.append_cancel_left hdata
    cases body'
    cases body
    exact congrArg String.mk this
  · apply verify_parts_ne_three
    rw [length_jsSplit]
    push_neg at hd
    obtain ⟨c, hc, hcdot⟩ := hd
    have hmem : '.' ∈ body'.data := by
      rw [← hcdot]
      exact hc
    have hcount : 1 ≤ body'.data.count '.' := List.count_pos_iff.mpr hmem
    have hdata : (headerB64String ++ "." ++ body' ++ "." ++
        hmac (headerB64String ++ "." ++ body)).data =
        headerB64String.data ++ '.' :: (body'.data ++ '.' ::
          (hmac (headerB64String ++ "." ++ body)).data) := by
      simp [String.data_append]
    rw [hdata]
    simp only [List.count_append, List.count_cons_self]
    omega

/-- C9: flipping any single character of the body segment of a
validly-issued token to a different character makes verification fail,
assuming the keyed hash is collision-free on distinct inputs; the issued
token is exactly the dotted header-body-signature concatenation. -/
theorem claim_C9_tamper_detection (hmac : String → String)
    (encodeBody : Int → String → Rat → String) (parseBody : String → Option JsVal)
    (now t ttl : Rat) (userId : Int) (username : String) (i : Nat) (c : Char)
    (hInj : ∀ a b : String, hmac a = hmac b → a = b)
    (hSigDot : ∀ ch ∈
      (hmac (headerB64String ++ "." ++ encodeBody userId username (now + ttl))).data, ch ≠ '.')
    (hi : i < (encodeBody userId username (now + ttl)).data.length)
    (hc : c ≠ (encodeBody userId username (now + ttl)).data.get ⟨i, hi⟩) :
    signAuthToken hmac encodeBody now userId username (some ttl) =
      headerB64String ++ "." ++ encodeBody userId username (now + ttl) ++ "." ++
        hmac (headerB64String ++ "." ++ encodeBody userId username (now + ttl)) ∧
      verifyAuthToken hmac parseBody t
        (some (headerB64String ++ "." ++
          replaceCharAt (encodeBody userId username (now + ttl)) i c ++ "." ++
          hmac (headerB64String ++ "." ++ encodeBody userId username (now + ttl)))) = none := by
  refine ⟨rfl, ?_⟩
  apply verify_reject_of_body_ne hmac parseBody t _ _ hInj hSigDot
  intro heq
  have hdata := congrArg String.data heq
  simp only [replaceCharAt] at hdata
  have h2 : (encodeBody userId username (now + ttl)).data[i]? = some c := by
    conv_lhs => rw [← hdata]
    exact List.getElem?_set_eq_of_lt c hi
  rw [List.getElem?_eq_getElem hi] at h2
  apply hc
  rw [← Option.some.inj h2]
  simp [List.get_eq_getElem]

/-- C9 witness: the tamper-detection theorem discharged at a concrete
issuance, flipping the first body character, with the injective unary
stand-in hash. -/
theorem claim_C9_tamper_detection_witness :
    (0 : Nat) < "BODY".data.length ∧
      'A' ≠ "BODY".data.get ⟨0, by decide⟩ ∧
      verifyAuthToken unaryEncode (fun _ => none) 0
          (some (headerB64String ++ "." ++ replaceCharAt "BODY" 0 'A' ++ "." ++
            unaryEncode (headerB64String ++ "." ++ "BODY"))) = none :=
  ⟨by decide, by decide,
    (claim_C9_tamper_detection unaryEncode (fun _ _ _ => "BODY") (fun _ => none)
      0 0 1000 1 "admin" 0 'A' unaryEncode_inj
      (fun ch hch => unaryEncode_no_dot (headerB64String ++ "." ++ "BODY") ch hch)
      (by decide) (by decide)).2⟩

/-- C1 (amended): a delta `updated` item replaces the whole table entry
with the freshly normalized update — the spread base is fully shadowed
because normalization constructs every field, so attributes the partial
does not carry take their normalization defaults (`null`, fallback name)
rather than the previous entry's values; only `lastUpdatedAt` is set to
the message timestamp. The resulting entry is independent of the prior
state. -/
theorem claim_C1_update_replaces (s : MonState) (ts : Int) (item : JsVal)
    (metric : RouterMetric) (hnorm : normalizeRouterItem item 0 ts = some metric) :
    lookupKey (applyDelta ts [] [item] [] s).metrics metric.id =
      some { metric with lastUpdatedAt := ts } := by
  have hlist : normalizeRouterPayload (.arr [item]) ts = [metric] := by
    unfold normalizeRouterPayload
    show ([(0, item)].filterMap (fun p => normalizeRouterItem p.2 p.1 ts)) = [metric]
    simp [List.filterMap_cons, hnorm]
  show lookupKey (applyDeltaCore ts
      ((normalizeRouterPayload (.arr []) ts).map (fun m => { m with lastUpdatedAt := ts }))
      ((normalizeRouterPayload (.arr [item]) ts).map (fun m => { m with lastUpdatedAt := ts }))
      (extractRouterIdentifiers []) s).metrics metric.id = _
  rw [hlist, show normalizeRouterPayload (.arr []) ts = [] from rfl]
  show lookupKey (applyDeltaCore ts [] [{ metric with lastUpdatedAt := ts }] [] s).metrics
      metric.id = _
  unfold applyDeltaCore
  rw [if_neg (by simp)]
  exact lookupKey_upsert_self s.metrics metric.id _

/-- Previous entry for router `A` carrying known cpu and memory. -/
def c1Metric : RouterMetric :=
  { id := "A", name := "A", status := none, total := none, active := none,
    cpu := some 50, memory := some 60, interfaces := [], lastUpdatedAt := 0 }

/-- State holding router `A` with `cpu = 50`, `memory = 60`. -/
def c1State : MonState := { metrics := [("A", c1Metric)], history := [("A", [])] }

/-- Delta message updating `A` with only a cpu value. -/
def c1Delta : JsVal :=
  .obj [("type", .str "delta"),
    ("routers", .obj [("updated", .arr [.obj [("id", .str "A"), ("cpu", .num 70)]])])]

/-- C1 counterexample: after `updated: [{id: A, cpu: 70}]` on a table
where `A` has `cpu = 50, memory = 60`, the resulting entry's memory is
`null` — not the claimed preserved `60` — while cpu is updated to 70. -/
theorem claim_C1_counterexample :
    c1Metric.cpu = some 50 ∧ c1Metric.memory = some 60 ∧
      (lookupKey (applyMessage c1State (5, c1Delta)).metrics "A").map RouterMetric.cpu =
        some (some 70) ∧
      (lookupKey (applyMessage c1State (5, c1Delta)).metrics "A").map RouterMetric.memory =
        some none :=
  ⟨rfl, rfl, rfl, rfl⟩

/-- The normalized form of the partial update `{id: A, cpu: 70}`. -/
def c1Update : RouterMetric :=
  { id := "A", name := "Router 1", status := none, total := none, active := none,
    cpu := some 70, memory := none, interfaces := [], lastUpdatedAt := 5 }

/-- C1 witness: the replacement theorem discharged at the concrete
partial update against the state where `A` has `memory = 60`. -/
theorem claim_C1_update_replaces_witness :
    normalizeRouterItem (.obj [("id", .str "A"), ("cpu", .num 70)]) 0 5 = some c1Update ∧
      lookupKey
          (applyDelta 5 [] [.obj [("id", .str "A"), ("cpu", .num 70)]] [] c1State).metrics
          c1Update.id =
        some { c1Update with lastUpdatedAt := 5 } :=
  ⟨rfl, claim_C1_update_replaces c1State 5 (.obj [("id", .str "A"), ("cpu", .num 70)])
    c1Update rfl⟩

/-! Reconciliation key lemmas. -/

theorem applyFullCore_metrics_isSome (ts : Int) (normalized : List RouterMetric) (s : MonState)
    (hne : normalized.length ≠ 0) (ident : String) :
    (lookupKey (applyFullCore ts normalized s).metrics ident).isSome =
      normalized.any (fun m => m.id = ident) := by
  unfold applyFullCore
  rw [if_neg hne]
  show (lookupKey (normalized.foldl (fun acc m => upsert acc m.id m) []) ident).isSome = _
  have hfold := isSome_lookupKey_foldl_upsert (fun acc m => upsert acc m.id m)
    (fun m => m.id) (fun acc m => ⟨m, rfl⟩) normalized [] ident
  rw [hfold]
  simp [lookupKey_nil]

theorem applyFullCore_history_isSome (ts : Int) (normalized : List RouterMetric) (s : MonState)
    (hne : normalized.length ≠ 0) (ident : String) :
    (lookupKey (applyFullCore ts normalized s).history ident).isSome =
      normalized.any (fun m => m.id = ident) := by
  unfold applyFullCore
  rw [if_neg hne]
  show (lookupKey ((normalized.foldl (pushPointInto ts) s.history).filter
      (fun p => (normalized.map (fun m => m.id)).contains p.1)) ident).isSome = _
  rw [lookupKey_filter]
  by_cases hmem : ident ∈ normalized.map (fun m => m.id)
  · rw [if_pos (by simpa using hmem)]
    have hfold := isSome_lookupKey_foldl_upsert (pushPointInto ts) (fun m => m.id)
      (fun acc m => ⟨_, rfl⟩) normalized s.history ident
    rw [hfold]
    have hany : normalized.any (fun m => m.id = ident) = true := by
      simp only [List.any_eq_true, decide_eq_true_eq]
      obtain ⟨m, hm, hid⟩ := List.mem_map.mp hmem
      exact ⟨m, hm, hid⟩
    simp [hany]
  · rw [if_neg (by simpa using hmem)]
    have hany : normalized.any (fun m => m.id = ident) = false := by
      simp only [List.any_eq_false, decide_eq_true_eq]
      intro m hm hid
      exact hmem (List.mem_map.mpr ⟨m, hm, hid⟩)
    simp [hany]

/-- Folding history pushes for a list that mentions a key leaves that key
holding a sequence ending in a point stamped with the fold's
timestamp. -/
theorem foldl_pushPointInto_last (ts : Int) (l : List RouterMetric) :
    ∀ (base : List (String × List RouterHistoryPoint)) (ident : String),
      l.any (fun m => m.id = ident) = true →
      ∃ pts pt, lookupKey (l.foldl (pushPointInto ts) base) ident = some (pts ++ [pt]) ∧
        pt.timestamp = ts := by
  induction l with
  | nil =>
    intro base ident h
    simp at h
  | cons m rest ih =>
    intro base ident h
    rw [List.foldl_cons]
    by_cases hr : rest.any (fun x => x.id = ident)
    · exact ih (pushPointInto ts base m) ident hr
    · have hm : m.id = ident := by
        simp only [List.any_cons, hr, Bool.or_false, decide_eq_true_eq] at h
        exact h
      rw [lookupKey_foldl_upsert_notMem (pushPointInto ts) (fun x => x.id)
        (fun acc x => ⟨_, rfl⟩) rest _ ident
        (fun x hx hc => (by simp [List.any_eq_true] : ¬ rest.any (fun x => x.id = ident) = true →
          ∀ y ∈ rest, ¬ y.id = ident) hr x hx hc)]
      show ∃ pts pt, lookupKey (upsert base m.id
        (pushHistoryPoint ((lookupKey base m.id).getD []) (mkHistoryPoint ts m))) ident =
          some (pts ++ [pt]) ∧ pt.timestamp = ts
      rw [hm, lookupKey_upsert_self]
      exact ⟨_, mkHistoryPoint ts m, by rw [pushHistoryPoint_eq], rfl⟩

/-- C2 (amended): whenever a full snapshot normalizes to at least one
router, reconciliation replaces the metric table so that it contains
exactly the snapshot's normalized router identifiers — previously present
routers absent from the snapshot are evicted — the history key set equals
the same identifiers, and every snapshot router's history ends in a point
stamped with the message timestamp. (A snapshot normalizing to zero
routers is skipped entirely; see the counterexample.) -/
theorem claim_C2_full_replacement (ts : Int) (normalized : List RouterMetric) (s : MonState)
    (hne : normalized.length ≠ 0) :
    (∀ ident, (lookupKey (applyFullCore ts normalized s).metrics ident).isSome ↔
        ident ∈ normalized.map (fun m => m.id)) ∧
      (∀ ident, (lookupKey (applyFullCore ts normalized s).history ident).isSome ↔
        ident ∈ normalized.map (fun m => m.id)) ∧
      (∀ m ∈ normalized, ∃ pts pt,
        lookupKey (applyFullCore ts normalized s).history m.id = some (pts ++ [pt]) ∧
          pt.timestamp = ts) := by
  refine ⟨?_, ?_, ?_⟩
  · intro ident
    rw [show ((lookupKey (applyFullCore ts normalized s).metrics ident).isSome = true) =
        (normalized.any (fun m => m.id = ident) = true) from
      congrArg (· = true) (applyFullCore_metrics_isSome ts normalized s hne ident)]
    simp [List.any_eq_true, List.mem_map]
  · intro ident
    rw [show ((lookupKey (applyFullCore ts normalized s).history ident).isSome = true) =
        (normalized.any (fun m => m.id = ident) = true) from
      congrArg (· = true) (applyFullCore_history_isSome ts normalized s hne ident)]
    simp [List.any_eq_true, List.mem_map]
  · intro m hm
    unfold applyFullCore
    rw [if_neg hne]
    show ∃ pts pt, lookupKey ((normalized.foldl (pushPointInto ts) s.history).filter
        (fun p => (normalized.map (fun x => x.id)).contains p.1)) m.id =
      some (pts ++ [pt]) ∧ pt.timestamp = ts
    rw [lookupKey_filter]
    rw [if_pos (by simp; exact ⟨m, hm, rfl⟩)]
    exact foldl_pushPointInto_last ts normalized s.history m.id
      (by simp only [List.any_eq_true, decide_eq_true_eq]; exact ⟨m, hm, rfl⟩)

/-- State after a full snapshot listing routers `A` and `B`. -/
def c2S1 : MonState :=
  applyMessage emptyMonState (1, .arr [.obj [("id", .str "A")], .obj [("id", .str "B")]])

/-- Normalized router `B` of the second snapshot. -/
def c2B2 : RouterMetric :=
  { id := "B", name := "Router 1", status := none, total := none, active := none,
    cpu := none, memory := none, interfaces := [], lastUpdatedAt := 2 }

/-- Normalized router `C` of the second snapshot. -/
def c2C2 : RouterMetric :=
  { id := "C", name := "Router 2", status := none, total := none, active := none,
    cpu := none, memory := none, interfaces := [], lastUpdatedAt := 2 }

/-- C2 witness: the replacement theorem discharged on the spec's own
example — `{A, B}` followed by `{B, C}` leaves exactly `{B, C}`, with `A`
evicted. -/
theorem claim_C2_full_replacement_witness :
    ([c2B2, c2C2] : List RouterMetric).length ≠ 0 ∧
      applyMessage c2S1 (2, .arr [.obj [("id", .str "B")], .obj [("id", .str "C")]]) =
        applyFullCore 2 [c2B2, c2C2] c2S1 ∧
      ¬ (lookupKey (applyFullCore 2 [c2B2, c2C2] c2S1).metrics "A").isSome ∧
      (lookupKey (applyFullCore 2 [c2B2, c2C2] c2S1).metrics "B").isSome ∧
      (lookupKey (applyFullCore 2 [c2B2, c2C2] c2S1).metrics "C").isSome := by
  refine ⟨by decide, rfl, ?_, ?_, ?_⟩
  · rw [(claim_C2_full_replacement 2 [c2B2, c2C2] c2S1 (by decide)).1 "A"]
    decide
  · rw [(claim_C2_full_replacement 2 [c2B2, c2C2] c2S1 (by decide)).1 "B"]
    decide
  · rw [(claim_C2_full_replacement 2 [c2B2, c2C2] c2S1 (by decide)).1 "C"]
    decide

/-- C2 counterexample: a full-snapshot message whose items normalize to
zero routers (here the single item `42`) is skipped — previously present
router `A` survives, though the claim, read over every full-snapshot
message, demands the table then contain exactly the snapshot's (empty)
normalized router set. -/
theorem claim_C2_counterexample :
    normalizeRouterPayload (.arr [.num 42]) 2 = [] ∧
      applyMessage c2S1 (2, .arr [.num 42]) = c2S1 ∧
      (lookupKey (applyMessage c2S1 (2, .arr [.num 42])).metrics "A").isSome = true :=
  ⟨rfl, rfl, rfl⟩

theorem applyDeltaCore_metrics_isSome (ts : Int) (na nu : List RouterMetric)
    (rids : List String) (s : MonState) (ident : String)
    (hguard : ¬ (na.length = 0 ∧ nu.length = 0 ∧ rids.length = 0)) :
    (lookupKey (applyDeltaCore ts na nu rids s).metrics ident).isSome =
      ((((lookupKey s.metrics ident).isSome || na.any (fun m => m.id = ident)) ||
          nu.any (fun m => m.id = ident)) &&
        !(rids.contains ident)) := by
  unfold applyDeltaCore
  rw [if_neg hguard]
  show (lookupKey (rids.foldl (fun acc i => eraseKey acc i)
      (nu.foldl (fun acc m =>
          upsert acc m.id (spreadMergeMetric ((lookupKey acc m.id).getD m) m ts))
        (na.foldl (fun acc m => upsert acc m.id m) s.metrics))) ident).isSome = _
  rw [lookupKey_foldl_eraseKey]
  by_cases hmem : ident ∈ rids
  · simp [hmem]
  · have h₂ := isSome_lookupKey_foldl_upsert
      (fun acc m => upsert acc m.id (spreadMergeMetric ((lookupKey acc m.id).getD m) m ts))
      (fun m => m.id) (fun acc m => ⟨_, rfl⟩) nu
      (na.foldl (fun acc m => upsert acc m.id m) s.metrics) ident
    have h₁ := isSome_lookupKey_foldl_upsert (fun acc m => upsert acc m.id m)
      (fun m => m.id) (fun acc m => ⟨m, rfl⟩) na s.metrics ident
    simp [hmem, h₂, h₁]

theorem applyDeltaCore_history_isSome (ts : Int) (na nu : List RouterMetric)
    (rids : List String) (s : MonState) (ident : String)
    (hguard : ¬ (na.length = 0 ∧ nu.length = 0 ∧ rids.length = 0)) :
    (lookupKey (applyDeltaCore ts na nu rids s).history ident).isSome =
      ((((lookupKey s.history ident).isSome || na.any (fun m => m.id = ident)) ||
          nu.any (fun m => m.id = ident)) &&
        !(rids.contains ident)) := by
  unfold applyDeltaCore
  rw [if_neg hguard]
  show (lookupKey (rids.foldl (fun acc i => eraseKey acc i)
      (nu.foldl (pushPointInto ts) (na.foldl (pushPointInto ts) s.history))) ident).isSome = _
  rw [lookupKey_foldl_eraseKey]
  by_cases hmem : ident ∈ rids
  · simp [hmem]
  · have h₂ := isSome_lookupKey_foldl_upsert (pushPointInto ts) (fun m => m.id)
      (fun acc m => ⟨_, rfl⟩) nu (na.foldl (pushPointInto ts) s.history) ident
    have h₁ := isSome_lookupKey_foldl_upsert (pushPointInto ts) (fun m => m.id)
      (fun acc m => ⟨_, rfl⟩) na s.history ident
    simp [hmem, h₂, h₁]

/-- The invariant of C10: metric-table keys and history keys coincide. -/
def sameKeySets (s : MonState) : Prop :=
  ∀ ident, (lookupKey s.metrics ident).isSome = (lookupKey s.history ident).isSome

theorem sameKeySets_applyFullCore (ts : Int) (normalized : List RouterMetric) (s : MonState)
    (h : sameKeySets s) : sameKeySets (applyFullCore ts normalized s) := by
  by_cases hne : normalized.length = 0
  · unfold applyFullCore
    rw [if_pos hne]
    exact h
  · intro ident
    rw [applyFullCore_metrics_isSome ts normalized s hne ident,
      applyFullCore_history_isSome ts normalized s hne ident]

theorem sameKeySets_applyDeltaCore (ts : Int) (na nu : List RouterMetric)
    (rids : List String) (s : MonState) (h : sameKeySets s) :
    sameKeySets (applyDeltaCore ts na nu rids s) := by
  by_cases hguard : na.length = 0 ∧ nu.length = 0 ∧ rids.length = 0
  · unfold applyDeltaCore
    rw [if_pos hguard]
    exact h
  · intro ident
    rw [applyDeltaCore_metrics_isSome ts na nu rids s ident hguard,
      applyDeltaCore_history_isSome ts na nu rids s ident hguard, h ident]

theorem sameKeySets_applyMessage (s : MonState) (msg : Int × JsVal) (h : sameKeySets s) :
    sameKeySets (applyMessage s msg) := by
  unfold applyMessage
  rcases hI : interpretMonitoringPayload msg.2 with _ | interp
  · exact h
  · cases interp with
    | full routers => exact sameKeySets_applyFullCore msg.1 _ s h
    | delta a u r => exact sameKeySets_applyDeltaCore msg.1 _ _ _ s h

/-- C10: starting from the empty state, after any sequence of decoded
messages the set of router identifiers holding a history sequence is
exactly the set of identifiers in the metric table — every reconciliation
step (full replacement with history pruning, delta insertion and update
with history pushes, removal deleting both) keeps the two key sets
equal. -/
theorem claim_C10_keys_invariant (msgs : List (Int × JsVal)) :
    sameKeySets (msgs.foldl applyMessage emptyMonState) := by
  suffices hgen : ∀ s, sameKeySets s → sameKeySets (msgs.foldl applyMessage s) by
    exact hgen emptyMonState (fun ident => rfl)
  induction msgs with
  | nil => exact fun s h => h
  | cons msg rest ih => exact fun s h => ih _ (sameKeySets_applyMessage s msg h)

/-- C7 (amended): for every text frame that fails whole-string JSON
parsing and splits into more than one non-empty line, each line is parsed
independently with raw-line fallback; exactly one meaningful segment is
used directly; several meaningful segments are collected into one array,
which the interpreter subsequently classifies as a single full snapshot
whose router items are the segments (not as independently classified
payloads); zero meaningful segments fall back to the trimmed raw
string. -/
theorem claim_C7_multiline (tryParse : String → Option JsVal) (value : String)
    (parsedSegments : List JsVal)
    (hne : jsTrim value ≠ "") (hfail : tryParse (jsTrim value) = none)
    (hmulti : (jsSegments (jsTrim value)).length > 1)
    (hseg : parsedSegments = ((jsSegments (jsTrim value)).map
      (fun seg => (tryParse seg).getD (.str seg))).filter isMeaningfulSegment) :
    (parsedSegments.length = 1 →
        normalizeTextPayload tryParse value = parsedSegments.headD (.str (jsTrim value))) ∧
      (parsedSegments.length > 1 →
        normalizeTextPayload tryParse value = .arr parsedSegments ∧
          interpretMonitoringPayload (.arr parsedSegments) = some (.full parsedSegments)) ∧
      (parsedSegments.length = 0 →
        normalizeTextPayload tryParse value = .str (jsTrim value)) := by
  have hnorm : normalizeTextPayload tryParse value =
      (if parsedSegments.length = 1 then parsedSegments.headD (.str (jsTrim value))
       else if parsedSegments.length > 1 then .arr parsedSegments
       else .str (jsTrim value)) := by
    subst hseg
    simp only [normalizeTextPayload]
    rw [if_neg hne, hfail, if_pos hmulti]
  refine ⟨?_, ?_, ?_⟩
  · intro h1
    rw [hnorm, if_pos h1]
  · intro h2
    have hne1 : ¬ parsedSegments.length = 1 := by omega
    rw [hnorm, if_neg hne1, if_pos h2]
    exact ⟨rfl, rfl⟩
  · intro h0
    have hne1 : ¬ parsedSegments.length = 1 := by omega
    have hne2 : ¬ parsedSegments.length > 1 := by omega
    rw [hnorm, if_neg hne1, if_neg hne2]

/-- Modelled from the spec: §4.2 payload decoding step 3 — "if multiple,
treat the whole as a sequence of payloads and process each in turn", each
segment classified as full or delta on its own. No per-segment processing
loop exists in src/; this definition renders the spec's words for
comparison with the implemented pipeline. -/
def specProcessEachSegment (tryParse : String → Option JsVal) (ts : Int) (value : String)
    (s : MonState) : MonState :=
  let parsedSegments := ((jsSegments (jsTrim value)).map
    (fun seg => (tryParse seg).getD (.str seg))).filter isMeaningfulSegment
  parsedSegments.foldl (fun st v => applyMessage st (ts, v)) s

/-- First delta line of the two-line frame. -/
def c7V1 : JsVal :=
  .obj [("type", .str "delta"), ("routers", .obj [("removed", .arr [.str "A"])])]

/-- Second delta line of the two-line frame. -/
def c7V2 : JsVal :=
  .obj [("type", .str "delta"), ("routers", .obj [("removed", .arr [.str "B"])])]

/-- JSON text of the first delta line. -/
def c7L1 : String := "\x7b\"type\":\"delta\",\"routers\":\x7b\"removed\":[\"A\"]\x7d\x7d"

/-- JSON text of the second delta line. -/
def c7L2 : String := "\x7b\"type\":\"delta\",\"routers\":\x7b\"removed\":[\"B\"]\x7d\x7d"

/-- The newline-delimited two-delta frame. -/
def c7Text : String := c7L1 ++ "\n" ++ c7L2

/-- The host JSON parser on the strings of this frame: each line parses
to its delta object, the two-line whole fails to parse. -/
def c7TryParse : String → Option JsVal :=
  fun t => if t = c7L1 then some c7V1 else if t = c7L2 then some c7V2 else none

/-- Router `A` known before the frame arrives. -/
def c7MA : RouterMetric :=
  { id := "A", name := "A", status := none, total := none, active := none,
    cpu := none, memory := none, interfaces := [], lastUpdatedAt := 0 }

/-- Router `B` known before the frame arrives. -/
def c7MB : RouterMetric :=
  { id := "B", name := "B", status := none, total := none, active := none,
    cpu := none, memory := none, interfaces := [], lastUpdatedAt := 0 }

/-- State holding routers `A` and `B`. -/
def c7State : MonState :=
  { metrics := [("A", c7MA), ("B", c7MB)], history := [("A", []), ("B", [])] }

/-- C7 counterexample: an NDJSON frame of two delta lines is NOT
processed per segment. Each line alone classifies as a delta (removal),
yet the frame becomes the array of both objects, which the interpreter
classifies as one full snapshot whose router items are the two delta
objects — the table ends up holding fallback routers "Router 1" and
"Router 2", whereas processing each segment in turn (as claimed) would
have removed `A` and `B`, leaving the table empty. -/
theorem claim_C7_counterexample :
    normalizeTextPayload c7TryParse c7Text = .arr [c7V1, c7V2] ∧
      interpretMonitoringPayload (.arr [c7V1, c7V2]) = some (.full [c7V1, c7V2]) ∧
      interpretMonitoringPayload c7V1 = some (.delta [] [] [.str "A"]) ∧
      (applyMessage c7State (3, normalizeTextPayload c7TryParse c7Text)).metrics.map Prod.fst =
        ["Router 1", "Router 2"] ∧
      (specProcessEachSegment c7TryParse 3 c7Text c7State).metrics.map Prod.fst = [] :=
  ⟨rfl, rfl, rfl, rfl, rfl⟩

/-- C7 witness: the multiline characterization discharged on the
two-delta frame. -/
theorem claim_C7_multiline_witness :
    jsTrim c7Text ≠ "" ∧ c7TryParse (jsTrim c7Text) = none ∧
      (jsSegments (jsTrim c7Text)).length > 1 ∧
      normalizeTextPayload c7TryParse c7Text = .arr [c7V1, c7V2] ∧
      interpretMonitoringPayload (.arr [c7V1, c7V2]) = some (.full [c7V1, c7V2]) :=
  ⟨by decide, rfl, by decide,
    ((claim_C7_multiline c7TryParse c7Text [c7V1, c7V2] (by decide) rfl (by decide) rfl).2.1
      (by decide)).1,
    ((claim_C7_multiline c7TryParse c7Text [c7V1, c7V2] (by decide) rfl (by decide) rfl).2.1
      (by decide)).2⟩

end PanelNoc
